import Mathlib

/-!
# Verification of the Chat & Email API backend (`src/main.py`)

A shallow embedding of the FastAPI + MongoDB request handlers of
`src/main.py`, together with theorems settling the specification claims.

Modelling conventions:

* A BSON `ObjectId` is modelled by a `Nat`; its 24-hex-character wire form
  is a `String`, with `isValidOid` embedding `ObjectId.is_valid` (for
  string inputs: exactly 24 hex characters) and `strToOid` embedding the
  `ObjectId(s)` constructor (hex value, hence case-insensitive).
* A `datetime` is modelled by a `Nat` timestamp; `datetime.now(timezone.utc)`
  is modelled by passing each distinct `now()` call an explicit parameter.
  The textual renderings `isoformat` / `oidStr` are abstract injective
  renderings; no theorem depends on their exact characters.
* A MongoDB document is an association list `Doc` of field names to `Value`s,
  mirroring a Python dict (no duplicate keys in any document the store
  produces; insertion-ordered).  The values occurring in this application's
  documents are ObjectIds, datetimes, strings, booleans, `None`, and lists
  of scalars (`to`/`cc`/`bcc` are lists of strings, `participants` a list of
  ObjectIds), which the `Scalar`/`Value` types cover.
* Each MongoDB collection is a Lean list of typed records plus a `nextId`
  counter modelling ObjectId generation at insertion; `find_one`/`find`/
  `update_one` become `List.find?`/`List.filter`/`updateFirst`.
* `HTTPException(status, detail)` becomes the `Err` type; a handler returns
  its (possibly updated) state together with `Except Err` of its JSON
  payload.  `find_one` misses after an insert (impossible in practice, and
  guarded by freshness hypotheses in the theorems) surface as `Option`.
-/

/-- HTTP error raised by a handler (`raise HTTPException(status_code, detail)`). -/
inductive Err where
  | http (status : Nat) (detail : String)
deriving DecidableEq, Repr

/-- Scalar values that occur inside list-valued document fields. -/
inductive Scalar where
  | sOid (o : Nat)
  | sDt (t : Nat)
  | sStr (s : String)
  | sBool (b : Bool)
  | sNull
deriving DecidableEq, Repr

/-- Values of document fields: ObjectId, datetime, string, bool, None,
or a list of scalars. -/
inductive Value where
  | vOid (o : Nat)
  | vDt (t : Nat)
  | vStr (s : String)
  | vBool (b : Bool)
  | vNull
  | vList (xs : List Scalar)
deriving DecidableEq, Repr

/-- A stored document: an insertion-ordered association list of fields,
mirroring a Python dict (documents never carry duplicate keys). -/
def Doc : Type := List (String × Value)

instance : DecidableEq Doc := by
  unfold Doc
  infer_instance

/-- Abstract rendering of `str(ObjectId(...))` (24-char hex in Python). -/
def oidStr (o : Nat) : String :=
  "oid" ++ toString o

/-- Abstract rendering of `datetime.isoformat()`. -/
def isoformat (t : Nat) : String :=
  "ts" ++ toString t ++ "+00:00"

/-- Python `str(...)` on a document value; only ever reached on the `_id`
field, which is always an ObjectId in every stored document. -/
def pyStr : Value → String
  | .vOid o => oidStr o
  | .vDt t => isoformat t
  | .vStr s => s
  | .vBool b => if b then "True" else "False"
  | .vNull => "None"
  | .vList _ => "[list]"

/-- `d[key]` lookup on a dict modelled as an association list. -/
def getKey : Doc → String → Option Value
  | [], _ => none
  | (k, v) :: rest, key => if k = key then some v else getKey rest key

/-- `d.pop(key)`'s removal effect. -/
def eraseKey : Doc → String → Doc
  | [], _ => []
  | (k, v) :: rest, key =>
    if k = key then eraseKey rest key else (k, v) :: eraseKey rest key

/-- `d[key] = v`: overwrite in place if present, else append (dict semantics). -/
def setKey : Doc → String → Value → Doc
  | [], key, v => [(key, v)]
  | (k, w) :: rest, key, v =>
    if k = key then (key, v) :: rest else (k, w) :: setKey rest key v

/-- The `if "_id" in d: d["id"] = str(d.pop("_id"))` step of `serialize_id`. -/
def popIdStep (d : Doc) : Doc :=
  match getKey d "_id" with
  | some v => setKey (eraseKey d "_id") "id" (.vStr (pyStr v))
  | none => d

/-- Element conversion inside list-valued fields:
`str(x) if isinstance(x, ObjectId) else x`. -/
def convScalar : Scalar → Scalar
  | .sOid o => .sStr (oidStr o)
  | x => x

/-- Per-field conversion of the `for k, v in list(d.items())` loop body of
`serialize_id`: datetimes to isoformat strings, ObjectIds inside lists to
strings (a value is never both a datetime and a list, so the two `if`s
are exclusive). -/
def convVal : Value → Value
  | .vDt t => .vStr (isoformat t)
  | .vList xs => .vList (xs.map convScalar)
  | v => v

/-- `serialize_id` from `src/main.py`: on a falsy (empty) document return it
unchanged; otherwise rename `_id` to `id` (string form) and convert each
field with `convVal`. -/
def serialize_id (doc : Doc) : Doc :=
  match doc with
  | [] => []
  | _ => (popIdStep doc).map (fun p => (p.1, convVal p.2))

-- Basic lemmas about the dict operations.

theorem convScalar_idem (x : Scalar) : convScalar (convScalar x) = convScalar x := by
  cases x <;> rfl

theorem convVal_idem (v : Value) : convVal (convVal v) = convVal v := by
  cases v with
  | vList xs => simp [convVal, List.map_map, Function.comp, convScalar_idem]
  | _ => rfl

theorem getKey_eraseKey (d : Doc) (key : String) : getKey (eraseKey d key) key = none := by
  induction d with
  | nil => rfl
  | cons p rest ih =>
    obtain ⟨k, v⟩ := p
    by_cases h : k = key
    · simp [eraseKey, h, ih]
    · simp [eraseKey, getKey, h, ih]

theorem getKey_eraseKey_ne (d : Doc) (key k : String) (h : k ≠ key) :
    getKey (eraseKey d key) k = getKey d k := by
  induction d with
  | nil => rfl
  | cons p rest ih =>
    obtain ⟨k', v⟩ := p
    by_cases hk : k' = key
    · subst hk
      simp [eraseKey, getKey, Ne.symm h, ih]
    · simp only [eraseKey, if_neg hk, getKey]
      by_cases hkk : k' = k
      · simp [hkk]
      · simp [hkk, ih]

theorem getKey_setKey_ne (d : Doc) (key k : String) (v : Value) (h : k ≠ key) :
    getKey (setKey d key v) k = getKey d k := by
  induction d with
  | nil => simp [setKey, getKey, Ne.symm h]
  | cons p rest ih =>
    obtain ⟨k', w⟩ := p
    by_cases hk : k' = key
    · subst hk
      simp [setKey, getKey, Ne.symm h]
    · simp only [setKey, if_neg hk, getKey]
      by_cases hkk : k' = k
      · simp [hkk]
      · simp [hkk, ih]

theorem getKey_map_convVal (d : Doc) (k : String) :
    getKey (d.map (fun p => (p.1, convVal p.2))) k = (getKey d k).map convVal := by
  induction d with
  | nil => rfl
  | cons p rest ih =>
    obtain ⟨k', v⟩ := p
    by_cases hk : k' = k
    · simp [getKey, hk]
    · simp [getKey, hk, ih]

theorem setKey_ne_nil (d : Doc) (key : String) (v : Value) : setKey d key v ≠ [] := by
  cases d with
  | nil => simp [setKey]
  | cons p rest =>
    obtain ⟨k, w⟩ := p
    by_cases h : k = key <;> simp [setKey, h]

theorem popIdStep_ne_nil (d : Doc) (h : d ≠ []) : popIdStep d ≠ [] := by
  unfold popIdStep
  cases hg : getKey d "_id" with
  | none => exact h
  | some v => exact setKey_ne_nil _ _ _

theorem getKey_popIdStep_no_id (d : Doc) : getKey (popIdStep d) "_id" = none := by
  unfold popIdStep
  cases hg : getKey d "_id" with
  | none => exact hg
  | some v =>
    rw [getKey_setKey_ne _ _ _ _ (by decide)]
    exact getKey_eraseKey d "_id"

theorem serialize_id_no_id (d : Doc) : getKey (serialize_id d) "_id" = none := by
  cases d with
  | nil => rfl
  | cons p rest =>
    unfold serialize_id
    rw [getKey_map_convVal, getKey_popIdStep_no_id]
    rfl

/-- Applying `serialize_id` to an already-serialized non-empty document only
re-runs the per-field conversion, which is idempotent. -/
theorem serialize_id_idem (d : Doc) : serialize_id (serialize_id d) = serialize_id d := by
  cases d with
  | nil => rfl
  | cons p rest =>
    have h1 : serialize_id ((p :: rest : Doc)) =
        (popIdStep (p :: rest)).map (fun q => (q.1, convVal q.2)) := rfl
    have hne : serialize_id ((p :: rest : Doc)) ≠ [] := by
      rw [h1]
      intro hc
      have hpn := popIdStep_ne_nil (p :: rest) (by simp)
      cases hpe : popIdStep (p :: rest) with
      | nil => exact hpn hpe
      | cons a as => rw [hpe] at hc; simp at hc
    have hnoid : getKey (serialize_id ((p :: rest : Doc))) "_id" = none :=
      serialize_id_no_id _
    cases hd : serialize_id ((p :: rest : Doc)) with
    | nil => exact absurd hd hne
    | cons q qs =>
      show (popIdStep (q :: qs)).map (fun r => (r.1, convVal r.2)) = q :: qs
      have hpop : popIdStep (q :: qs) = q :: qs := by
        unfold popIdStep
        rw [show getKey (q :: qs) "_id" = none from hd ▸ hnoid]
      rw [hpop, ← hd, h1, List.map_map]
      apply List.map_congr_left
      intro a _
      simp [Function.comp, convVal_idem]

-- ## ObjectId wire format

/-- `ObjectId.is_valid` on a string argument: exactly 24 hexadecimal
characters. -/
def isValidOid (s : String) : Bool :=
  s.length = 24 && s.data.all (fun c => c.isDigit || ('a' ≤ c && c ≤ 'f') || ('A' ≤ c && c ≤ 'F'))

/-- Value of one hexadecimal digit (case-insensitive, as in hex parsing). -/
def hexVal (c : Char) : Nat :=
  if c.isDigit then c.toNat - 48
  else if 'a' ≤ c && c ≤ 'f' then c.toNat - 87
  else if 'A' ≤ c && c ≤ 'F' then c.toNat - 55
  else 0

/-- The `ObjectId(s)` constructor on a valid 24-hex-character string:
the hex value of the string (so distinct letter cases name the same id,
as in BSON). -/
def strToOid (s : String) : Nat :=
  s.data.foldl (fun a c => a * 16 + hexVal c) 0

-- ## Stored records (one structure per collection)

/-- A document of the `user` collection. -/
structure User where
  id : Nat
  name : String
  email : String
deriving DecidableEq, Repr

/-- A document of the `conversation` collection. -/
structure Conversation where
  id : Nat
  participants : List Nat
  title : String
  last_message : Option String
  created_at : Nat
  updated_at : Nat
deriving DecidableEq, Repr

/-- A document of the `message` collection. -/
structure Message where
  id : Nat
  conversation_id : Nat
  sender_id : Nat
  content : String
  created_at : Nat
deriving DecidableEq, Repr

/-- A document of the `email` collection.  `owner = none` models the
absence of the `owner` field (the sender's `sent` copy has no owner). -/
structure Email where
  id : Nat
  sender : String
  «to» : List String
  cc : List String
  bcc : List String
  subject : String
  body : String
  read : Bool
  folder : String
  owner : Option String
  created_at : Nat
  updated_at : Nat
deriving DecidableEq, Repr

/-- The user document as stored (field order as inserted, `_id` first). -/
def User.toDoc (u : User) : Doc :=
  [("_id", .vOid u.id), ("name", .vStr u.name), ("email", .vStr u.email)]

/-- The conversation document as stored. -/
def Conversation.toDoc (c : Conversation) : Doc :=
  [("_id", .vOid c.id),
   ("participants", .vList (c.participants.map .sOid)),
   ("title", .vStr c.title),
   ("last_message", match c.last_message with | some s => .vStr s | none => .vNull),
   ("created_at", .vDt c.created_at),
   ("updated_at", .vDt c.updated_at)]

/-- The message document as stored: `conversation_id` and `sender_id` are
top-level ObjectId-valued fields. -/
def Message.toDoc (m : Message) : Doc :=
  [("_id", .vOid m.id),
   ("conversation_id", .vOid m.conversation_id),
   ("sender_id", .vOid m.sender_id),
   ("content", .vStr m.content),
   ("created_at", .vDt m.created_at)]

/-- The email document as stored; the `owner` field is present only on
recipient inbox copies. -/
def Email.toDoc (e : Email) : Doc :=
  [("_id", .vOid e.id),
   ("sender", .vStr e.sender),
   ("to", .vList (e.to.map .sStr)),
   ("cc", .vList (e.cc.map .sStr)),
   ("bcc", .vList (e.bcc.map .sStr)),
   ("subject", .vStr e.subject),
   ("body", .vStr e.body),
   ("read", .vBool e.read),
   ("folder", .vStr e.folder)]
  ++ (match e.owner with | some o => [("owner", .vStr o)] | none => [])
  ++ [("created_at", .vDt e.created_at), ("updated_at", .vDt e.updated_at)]

/-- The whole document store (`db`), one list per collection, plus the
ObjectId generator: each insert takes `nextId` and increments it. -/
structure DB where
  users : List User
  conversations : List Conversation
  messages : List Message
  emails : List Email
  nextId : Nat
deriving Repr

/-- `update_one`: apply `f` to the first element satisfying `p`, leave the
rest unchanged (MongoDB `update_one` modifies at most one document). -/
def updateFirst (p : α → Bool) (f : α → α) : List α → List α
  | [] => []
  | x :: xs => if p x then f x :: xs else x :: updateFirst p f xs

theorem updateFirst_no_match (p : α → Bool) (f : α → α) (l : List α)
    (h : ∀ x ∈ l, p x = false) : updateFirst p f l = l := by
  induction l with
  | nil => rfl
  | cons x xs ih =>
    have hx := h x (List.mem_cons_self x xs)
    simp only [updateFirst, hx, if_neg Bool.false_ne_true]
    rw [ih (fun y hy => h y (List.mem_cons_of_mem x hy))]

-- ## Request handlers

/-- `HTTPException(400, "Email already exists")` — the spec's Conflict error. -/
def conflictEmailErr : Err := .http 400 "Email already exists"

/-- `HTTPException(400, "Invalid participant id")`. -/
def invalidParticipantErr : Err := .http 400 "Invalid participant id"

/-- Pydantic rejection of a `CreateConversation` body whose
`participant_ids` has fewer than `min_items=2` entries (FastAPI's request
validation layer, before the handler runs). -/
def minItemsErr : Err := .http 422 "ensure this value has at least 2 items"

/-- `HTTPException(400, "Invalid ids")` from `send_message`. -/
def invalidIdsErr : Err := .http 400 "Invalid ids"

/-- `HTTPException(400, "Invalid id")`. -/
def invalidIdErr : Err := .http 400 "Invalid id"

/-- `HTTPException(404, "Not found")`. -/
def notFoundErr : Err := .http 404 "Not found"

/-- `POST /api/users` (`create_user`): reject when `db["user"].find_one` on
the exact email finds an existing user; otherwise insert
`{name, email}` and return the re-read document, serialized. -/
def create_user (name email : String) (st : DB) : DB × Except Err (Option Doc) :=
  match st.users.find? (fun u => u.email = email) with
  | some _ => (st, .error conflictEmailErr)
  | none =>
    let u : User := { id := st.nextId, name := name, email := email }
    let users := st.users ++ [u]
    let st' : DB := { st with users := users, nextId := st.nextId + 1 }
    (st', .ok ((users.find? (fun v => v.id = u.id)).map (fun v => serialize_id v.toDoc)))

/-- The `payload.title or "Conversation"` default: Python `or` takes the
right operand when the left is `None` or the empty string (falsy). -/
def titleOrDefault : Option String → String
  | some s => if s = "" then "Conversation" else s
  | none => "Conversation"

/-- `POST /api/conversations` (`create_conversation`): the request model
requires at least two `participant_ids`; the handler rejects any entry
failing `ObjectId.is_valid`, then inserts the conversation document
(title defaulted, `last_message` null, the two `datetime.now` calls
passed as `t1`, `t2`) and returns the re-read document, serialized. -/
def create_conversation (participant_ids : List String) (title : Option String)
    (t1 t2 : Nat) (st : DB) : DB × Except Err (Option Doc) :=
  if participant_ids.length < 2 then (st, .error minItemsErr)
  else if ¬ participant_ids.all isValidOid then (st, .error invalidParticipantErr)
  else
    let c : Conversation :=
      { id := st.nextId
        participants := participant_ids.map strToOid
        title := titleOrDefault title
        last_message := none
        created_at := t1
        updated_at := t2 }
    let convs := st.conversations ++ [c]
    let st' : DB := { st with conversations := convs, nextId := st.nextId + 1 }
    (st', .ok ((convs.find? (fun d => d.id = c.id)).map (fun d => serialize_id d.toDoc)))

/-- Sort key of `.sort("updated_at", -1)`: `a` may come before `b` iff
`a.updated_at ≥ b.updated_at` (descending). -/
def updatedDesc (a b : Conversation) : Prop := b.updated_at ≤ a.updated_at

instance : DecidableRel updatedDesc := fun a b => Nat.decLe b.updated_at a.updated_at

instance : IsTotal Conversation updatedDesc :=
  ⟨fun a b => le_total b.updated_at a.updated_at⟩

instance : IsTrans Conversation updatedDesc :=
  ⟨fun _ _ _ h1 h2 => le_trans h2 h1⟩

/-- The filter of `GET /api/conversations`: `{}` unless `user_id` is truthy
(non-`None`, non-empty) and a valid ObjectId, in which case
`{"participants": ObjectId(user_id)}`. -/
def convFilter (user_id : Option String) : Conversation → Bool :=
  match user_id with
  | some u =>
    if u ≠ "" && isValidOid u then fun c => (c.participants.contains (strToOid u))
    else fun _ => true
  | none => fun _ => true

/-- `GET /api/conversations` (`list_conversations`), before serialization:
filter by participant when the query parameter is present and valid, sort
by `updated_at` descending.  The store's result order is modelled by a
sort producing the filtered documents in descending `updated_at` order. -/
def listConversationsRecs (user_id : Option String) (st : DB) : List Conversation :=
  List.insertionSort updatedDesc (st.conversations.filter (convFilter user_id))

/-- `GET /api/conversations` (`list_conversations`): the sorted, filtered
documents, serialized. -/
def list_conversations (user_id : Option String) (st : DB) : List Doc :=
  (listConversationsRecs user_id st).map (fun c => serialize_id c.toDoc)

/-- `POST /api/messages` (`send_message`): reject unless both ids pass
`ObjectId.is_valid`; insert the message (`created_at` from the first
`datetime.now` call `t1`), `update_one` the conversation's
`last_message`/`updated_at` (second call `t2`), and return the re-read
message, serialized. -/
def send_message (conversation_id sender_id content : String) (t1 t2 : Nat)
    (st : DB) : DB × Except Err (Option Doc) :=
  if ¬ (isValidOid conversation_id && isValidOid sender_id) then
    (st, .error invalidIdsErr)
  else
    let m : Message :=
      { id := st.nextId
        conversation_id := strToOid conversation_id
        sender_id := strToOid sender_id
        content := content
        created_at := t1 }
    let msgs := st.messages ++ [m]
    let convs := updateFirst (fun c => c.id = strToOid conversation_id)
      (fun c => { c with last_message := some content, updated_at := t2 })
      st.conversations
    let st' : DB := { st with messages := msgs, conversations := convs, nextId := st.nextId + 1 }
    (st', .ok ((msgs.find? (fun v => v.id = m.id)).map (fun v => serialize_id v.toDoc)))

/-- The recipient inbox copies of `create_email`:
`{**email_doc, "folder": "inbox", "owner": recipient, "created_at": now,
"updated_at": now}` for each entry of `to` in order, with the ids the
store assigns at `insert_many` (consecutive from `i`). -/
def mkInboxCopies (base : Email) (t3 : Nat) : List String → Nat → List Email
  | [], _ => []
  | r :: rs, i =>
    { base with id := i, folder := "inbox", owner := some r,
                created_at := t3, updated_at := t3 }
      :: mkInboxCopies base t3 rs (i + 1)

/-- The sender's `sent` record built by `create_email` (no `owner` field;
`created_at`/`updated_at` from the first two `datetime.now` calls). -/
def sentEmail (sender : String) («to» cc bcc : List String) (subject body : String)
    (t1 t2 : Nat) (i : Nat) : Email :=
  { id := i, sender := sender, «to» := «to», cc := cc, bcc := bcc,
    subject := subject, body := body, read := false, folder := "sent",
    owner := none, created_at := t1, updated_at := t2 }

/-- `POST /api/emails` (`create_email`): insert the `sent` record, then
`insert_many` one inbox copy per entry of `to` (cc/bcc get none), each
with `owner` set to that recipient, sharing the third `datetime.now`
value `t3`; return the re-read `sent` record, serialized.  The optional
`cc`/`bcc` default to `[]`. -/
def create_email (sender : String) («to» cc bcc : List String) (subject body : String)
    (t1 t2 t3 : Nat) (st : DB) : DB × Option Doc :=
  let sent := sentEmail sender «to» cc bcc subject body t1 t2 st.nextId
  let copies := mkInboxCopies sent t3 «to» (st.nextId + 1)
  let emails := st.emails ++ sent :: copies
  let st' : DB := { st with emails := emails, nextId := st.nextId + 1 + «to».length }
  (st', (emails.find? (fun e => e.id = sent.id)).map (fun e => serialize_id e.toDoc))

/-- The `$set` document of `update_email` applied to a record: always
`updated_at := now`; `read`/`folder` only when supplied in the body. -/
def applyEmailSet (read : Option Bool) (folder : Option String) (now : Nat)
    (e : Email) : Email :=
  { e with updated_at := now,
           read := read.getD e.read,
           folder := folder.getD e.folder }

/-- `PATCH /api/emails/{email_id}` (`update_email`): reject a malformed id;
build the `$set` update (always `updated_at := now`, plus `read`/`folder`
when supplied), `update_one` the matching record, 404 when nothing
matched, else return the re-read record, serialized. -/
def update_email (email_id : String) (read : Option Bool) (folder : Option String)
    (now : Nat) (st : DB) : DB × Except Err (Option Doc) :=
  if ¬ isValidOid email_id then (st, .error invalidIdErr)
  else
    let oid := strToOid email_id
    if st.emails.all (fun e => ¬ e.id = oid) then
      ({ st with
         emails := updateFirst (fun e => e.id = oid) (applyEmailSet read folder now) st.emails },
       .error notFoundErr)
    else
      let emails := updateFirst (fun e => e.id = oid) (applyEmailSet read folder now) st.emails
      ({ st with emails := emails },
       .ok ((emails.find? (fun e => e.id = oid)).map (fun e => serialize_id e.toDoc)))

-- ## Search (`GET /api/search`)

/-- One pattern character against one subject character under the `"i"`
option of `$regex`: the metacharacter `.` matches any character; any
other (literal) character matches case-insensitively. -/
def chMatch (p c : Char) : Bool :=
  p = '.' || p.toLower = c.toLower

/-- The regex pattern matched at the start of the subject (patterns built
from literal characters and `.`, the fragment of `$regex` this
development models; the handler passes the raw query string as the
pattern, unescaped). -/
def reMatchAt : List Char → List Char → Bool
  | [], _ => true
  | _ :: _, [] => false
  | p :: ps, c :: cs => chMatch p c && reMatchAt ps cs

/-- Unanchored `$regex` search: the pattern matches at some position of the
subject. -/
def reFind (pat : List Char) : List Char → Bool
  | [] => reMatchAt pat []
  | c :: cs => reMatchAt pat (c :: cs) || reFind pat cs

/-- `{"field": {"$regex": q, "$options": "i"}}` on a string field. -/
def regexFindCI (q s : String) : Bool :=
  reFind q.data s.data

/-- `GET /api/search` (`search`): a falsy (empty) `q` short-circuits to two
empty lists; otherwise filter conversations on title and emails on
subject-or-body by unanchored case-insensitive `$regex` with the raw
query as pattern, each `.limit(10)`, serialized. -/
def search (q : String) (st : DB) : List Doc × List Doc :=
  if q = "" then ([], [])
  else
    (((st.conversations.filter (fun c => regexFindCI q c.title)).take 10).map
        (fun c => serialize_id c.toDoc),
     ((st.emails.filter (fun e => regexFindCI q e.subject || regexFindCI q e.body)).take 10).map
        (fun e => serialize_id e.toDoc))

-- ## Spec-side predicates (for refinement comparison only)

/-- Modelled from the spec: `needle` occurs in `hay` at the start,
compared case-insensitively (helper for the substring predicate). -/
def headMatchCI : List Char → List Char → Bool
  | [], _ => true
  | _ :: _, [] => false
  | p :: ps, c :: cs => (p.toLower = c.toLower) && headMatchCI ps cs

/-- Modelled from the spec: "contains q as a case-insensitive substring" —
`needle` occurs contiguously somewhere in `hay`, case-insensitively. -/
def substrCI (needle : List Char) : List Char → Bool
  | [] => headMatchCI needle []
  | c :: cs => headMatchCI needle (c :: cs) || substrCI needle cs

/-- Modelled from the spec: the string `hay` contains the string `needle`
as a case-insensitive substring. -/
def containsCI (hay needle : String) : Bool :=
  substrCI needle.data hay.data

/-- The PCRE metacharacters; a query built without them denotes itself as a
literal pattern. -/
def regexMeta : List Char :=
  ['.', '^', '$', '*', '+', '?', '(', ')', '[', ']', '{', '}', '|', '\\']

/-- A query string that contains no regex metacharacter. -/
def literalQuery (q : String) : Prop :=
  ∀ c ∈ q.data, c ∉ regexMeta

instance (q : String) : Decidable (literalQuery q) := by
  unfold literalQuery
  infer_instance

theorem reMatchAt_literal (pat s : List Char) (h : ∀ c ∈ pat, c ∉ regexMeta) :
    reMatchAt pat s = headMatchCI pat s := by
  induction pat generalizing s with
  | nil => rfl
  | cons p ps ih =>
    cases s with
    | nil => rfl
    | cons c cs =>
      have hp : p ∉ regexMeta := h p (List.mem_cons_self p ps)
      have hdot : ¬ p = '.' := fun hc => hp (hc ▸ (by simp [regexMeta]))
      simp only [reMatchAt, headMatchCI, chMatch, hdot, decide_False, Bool.false_or]
      rw [ih cs (fun c hc => h c (List.mem_cons_of_mem p hc))]

theorem reFind_literal (pat s : List Char) (h : ∀ c ∈ pat, c ∉ regexMeta) :
    reFind pat s = substrCI pat s := by
  induction s with
  | nil => simp [reFind, substrCI, reMatchAt_literal _ _ h]
  | cons c cs ih => simp [reFind, substrCI, reMatchAt_literal _ _ h, ih]

theorem regexFindCI_literal (q s : String) (h : literalQuery q) :
    regexFindCI q s = containsCI s q :=
  reFind_literal q.data s.data h

-- ## Helper lemmas about the store operations

theorem find?_append_right (l1 l2 : List α) (p : α → Bool)
    (h : ∀ x ∈ l1, p x = false) : (l1 ++ l2).find? p = l2.find? p := by
  induction l1 with
  | nil => rfl
  | cons x xs ih =>
    rw [List.cons_append, List.find?_cons, h x (List.mem_cons_self x xs)]
    exact ih (fun y hy => h y (List.mem_cons_of_mem x hy))

theorem updateFirst_eq_map (p : α → Bool) (g : α → α) (l : List α)
    (h : l.Pairwise (fun x y => p x = true → p y = false)) :
    updateFirst p g l = l.map (fun x => if p x then g x else x) := by
  induction l with
  | nil => rfl
  | cons x xs ih =>
    rw [List.pairwise_cons] at h
    by_cases hx : p x
    · simp only [updateFirst, hx, if_true, if_pos hx, List.map_cons]
      have : xs.map (fun y => if p y then g y else y) = xs.map (fun y => y) :=
        List.map_congr_left (fun y hy => by rw [h.1 y hy hx]; simp)
      rw [this, List.map_id']
    · simp only [updateFirst, List.map_cons]
      rw [if_neg hx, if_neg hx, ih h.2]

theorem find?_map_of_unique (p : α → Bool) (g : α → α) (l : List α) (e : α)
    (h : l.Pairwise (fun x y => p x = true → p y = false))
    (he : e ∈ l) (hpe : p e = true)
    (hstable : ∀ x, p x = true → p (g x) = true) :
    (l.map (fun x => if p x then g x else x)).find? p = some (g e) := by
  induction l with
  | nil => cases he
  | cons x xs ih =>
    rw [List.pairwise_cons] at h
    by_cases hx : p x
    · have hex : e = x := by
        rcases List.mem_cons.mp he with h1 | h2
        · exact h1
        · exact absurd hpe (by rw [h.1 e h2 hx]; simp)
      subst hex
      rw [List.map_cons, if_pos hx]
      exact List.find?_cons_of_pos _ (hstable e hx)
    · have he2 : e ∈ xs := by
        rcases List.mem_cons.mp he with h1 | h2
        · exact absurd hpe (h1 ▸ (by simpa using hx))
        · exact h2
      rw [List.map_cons, if_neg hx, List.find?_cons_of_neg _ (by simpa using hx)]
      exact ih h.2 he2

theorem mem_mkInboxCopies (b : Email) (t : Nat) (rs : List String) (i : Nat) (e : Email)
    (he : e ∈ mkInboxCopies b t rs i) :
    e.folder = "inbox" ∧ (∃ r ∈ rs, e.owner = some r) ∧ e.sender = b.sender ∧
    e.«to» = b.«to» ∧ e.cc = b.cc ∧ e.bcc = b.bcc ∧ e.subject = b.subject ∧
    e.body = b.body ∧ e.read = b.read ∧ e.created_at = t ∧ e.updated_at = t := by
  induction rs generalizing i with
  | nil => cases he
  | cons r rs ih =>
    rcases List.mem_cons.mp he with h1 | h2
    · subst h1
      refine ⟨rfl, ⟨r, List.mem_cons_self r rs, rfl⟩, rfl, rfl, rfl, rfl, rfl, rfl, rfl, rfl, rfl⟩
    · obtain ⟨hf, ⟨r', hr', ho⟩, hrest⟩ := ih (i + 1) h2
      exact ⟨hf, ⟨r', List.mem_cons_of_mem r hr', ho⟩, hrest⟩

theorem countP_mkInboxCopies_zero (b : Email) (t : Nat) (rs : List String) (i : Nat) (a : String)
    (ha : a ∉ rs) :
    (mkInboxCopies b t rs i).countP
      (fun e => e.folder = "inbox" && e.owner = some a) = 0 := by
  induction rs generalizing i with
  | nil => rfl
  | cons r rs ih =>
    have hra : ¬ r = a := fun hc => ha (hc ▸ List.mem_cons_self r rs)
    have hhead : (decide (("inbox" : String) = "inbox") &&
        decide ((some r : Option String) = some a)) = false := by
      simp [hra]
    simp only [mkInboxCopies, List.countP_cons]
    rw [ih (i + 1) (fun hc => ha (List.mem_cons_of_mem r hc))]
    simpa using hhead

theorem countP_mkInboxCopies_owner (b : Email) (t : Nat) (rs : List String) (i : Nat) (a : String)
    (hnd : rs.Nodup) :
    (mkInboxCopies b t rs i).countP
      (fun e => e.folder = "inbox" && e.owner = some a) =
      if a ∈ rs then 1 else 0 := by
  induction rs generalizing i with
  | nil => rfl
  | cons r rs ih =>
    rw [List.nodup_cons] at hnd
    simp only [mkInboxCopies, List.countP_cons]
    by_cases hra : r = a
    · subst hra
      rw [countP_mkInboxCopies_zero b t rs (i + 1) r hnd.1]
      simp [List.mem_cons_self]
    · rw [ih (i + 1) hnd.2]
      by_cases hmem : a ∈ rs
      · simp [hmem, List.mem_cons, hra]
      · simp [hmem, List.mem_cons, hra, Ne.symm]

-- ## Claim theorems

theorem getKey_serialize_id_vOid (d : Doc) (k : String) (o : Nat)
    (hk1 : ¬ k = "_id") (hk2 : ¬ k = "id") (hget : getKey d k = some (.vOid o)) :
    getKey (serialize_id d) k = some (.vOid o) := by
  cases d with
  | nil => cases hget
  | cons p rest =>
    have hser : serialize_id ((p :: rest : Doc)) =
        (popIdStep (p :: rest)).map (fun q => (q.1, convVal q.2)) := rfl
    rw [hser, getKey_map_convVal]
    have hpop : getKey (popIdStep (p :: rest)) k = some (.vOid o) := by
      unfold popIdStep
      cases hg : getKey (p :: rest) "_id" with
      | none => exact hget
      | some v =>
        rw [getKey_setKey_ne _ _ _ _ hk2, getKey_eraseKey_ne _ _ _ hk1]
        exact hget
    rw [hpop]
    rfl

/-- C8 counterexample: on the non-empty document `{"created_at": <datetime 0>}`,
which has no `_id` field, `serialize_id` does not return the input
unchanged — it still converts the datetime to its textual form. -/
theorem serialize_id_changes_doc_without_id :
    serialize_id [("created_at", .vDt 0)] ≠ [("created_at", .vDt 0)] := by
  decide

/-- C8 (amended): `serialize_id` is idempotent, returns the empty document
as-is, and on a document missing the `_id` field adds no `id` field and
preserves the key sequence — but still applies the per-field conversion
(datetimes to text, ObjectIds inside lists to strings), so the document
is not in general returned unchanged. -/
theorem serialize_id_idem_and_total (d d' : Doc) (h : getKey d' "_id" = none) :
    serialize_id (serialize_id d) = serialize_id d ∧
    serialize_id ([] : Doc) = [] ∧
    (serialize_id d').map Prod.fst = d'.map Prod.fst ∧
    serialize_id d' = d'.map (fun p => (p.1, convVal p.2)) := by
  have hpop : popIdStep d' = d' := by
    unfold popIdStep
    rw [h]
  refine ⟨serialize_id_idem d, rfl, ?_, ?_⟩
  · cases d' with
    | nil => rfl
    | cons p rest =>
      have hser : serialize_id ((p :: rest : Doc)) =
          (p :: rest).map (fun q => (q.1, convVal q.2)) := by
        show (popIdStep (p :: rest)).map _ = _
        rw [hpop]
      rw [hser, List.map_map]
      rfl
  · cases d' with
    | nil => rfl
    | cons p rest =>
      show (popIdStep (p :: rest)).map _ = _
      rw [hpop]

theorem serialize_id_idem_and_total_witness :
    getKey [(("name" : String), Value.vStr "n")] "_id" = none ∧
    serialize_id (serialize_id [("name", .vStr "n")]) = serialize_id [("name", .vStr "n")] :=
  ⟨by decide, (serialize_id_idem_and_total [("name", .vStr "n")] [("name", .vStr "n")] (by decide)).1⟩

/-- C9: `serialize_id` converts ObjectIds to strings only for the `_id`
field itself and inside list-valued fields; a top-level ObjectId-valued
field other than `_id` — such as `conversation_id` or `sender_id` on a
message document — is returned unconverted. -/
theorem serialize_id_top_level_oids_raw (m : Message) :
    getKey (serialize_id m.toDoc) "conversation_id" = some (.vOid m.conversation_id) ∧
    getKey (serialize_id m.toDoc) "sender_id" = some (.vOid m.sender_id) ∧
    (∀ (d : Doc) (k : String) (o : Nat), ¬ k = "_id" → ¬ k = "id" →
      getKey d k = some (.vOid o) → getKey (serialize_id d) k = some (.vOid o)) := by
  refine ⟨?_, ?_, fun d k o h1 h2 h3 => getKey_serialize_id_vOid d k o h1 h2 h3⟩
  · exact getKey_serialize_id_vOid _ _ _ (by decide) (by decide) (by rfl)
  · exact getKey_serialize_id_vOid _ _ _ (by decide) (by decide) (by rfl)

theorem serialize_id_top_level_oids_raw_witness :
    getKey (serialize_id (Message.toDoc ⟨1, 2, 3, "hi", 4⟩)) "conversation_id" =
      some (.vOid 2) :=
  (serialize_id_top_level_oids_raw ⟨1, 2, 3, "hi", 4⟩).1

/-- C3: `create_user` fails with the Conflict error (HTTP 400,
"Email already exists") and inserts nothing when some existing user has
the exact (case-sensitive) email; otherwise it inserts the user and
returns it serialized. -/
theorem create_user_conflict_and_insert (name email : String) (st : DB)
    (hfresh : ∀ u ∈ st.users, u.id ≠ st.nextId) :
    ((∃ u ∈ st.users, u.email = email) →
      create_user name email st = (st, .error conflictEmailErr)) ∧
    ((∀ u ∈ st.users, u.email ≠ email) →
      create_user name email st =
        ({ st with
           users := st.users ++ [{ id := st.nextId, name := name, email := email }],
           nextId := st.nextId + 1 },
         .ok (some (serialize_id
           (User.toDoc { id := st.nextId, name := name, email := email }))))) := by
  constructor
  · rintro ⟨u, hu, he⟩
    unfold create_user
    cases hf : st.users.find? (fun v => v.email = email) with
    | none =>
      rw [List.find?_eq_none] at hf
      exact absurd he (by simpa using hf u hu)
    | some v => rfl
  · intro hall
    unfold create_user
    have hf : st.users.find? (fun v => v.email = email) = none := by
      rw [List.find?_eq_none]
      intro u hu
      simpa using hall u hu
    rw [hf]
    have hright :
        (st.users ++ [{ id := st.nextId, name := name, email := email : User }]).find?
          (fun v => v.id = st.nextId) =
          some { id := st.nextId, name := name, email := email } := by
      rw [find?_append_right _ _ _ (fun x hx => by simpa using hfresh x hx)]
      simp
    simp only [hright]
    rfl

theorem create_user_conflict_and_insert_witness :
    create_user "Ann" "a@x.com"
        { users := [], conversations := [], messages := [], emails := [], nextId := 1 } =
      ({ users := [{ id := 1, name := "Ann", email := "a@x.com" }], conversations := [],
         messages := [], emails := [], nextId := 2 },
       .ok (some (serialize_id (User.toDoc { id := 1, name := "Ann", email := "a@x.com" })))) :=
  (create_user_conflict_and_insert "Ann" "a@x.com" _
      (by intro u hu; cases hu)).2
    (by intro u hu; cases hu)

/-- C10: `create_conversation` treats an empty-string title the same as an
absent one — `payload.title or "Conversation"` takes the default on both
`None` and `""` — so the stored conversation's title is `"Conversation"`,
not the empty string. -/
theorem create_conversation_empty_title_defaults (pids : List String) (t1 t2 : Nat)
    (st : DB) (hlen : 2 ≤ pids.length) (hvalid : pids.all isValidOid = true) :
    (create_conversation pids (some "") t1 t2 st).1.conversations =
      st.conversations ++
        [{ id := st.nextId, participants := pids.map strToOid, title := "Conversation",
           last_message := none, created_at := t1, updated_at := t2 }] ∧
    titleOrDefault (some "") = titleOrDefault none ∧
    titleOrDefault (some "") = "Conversation" := by
  refine ⟨?_, rfl, rfl⟩
  unfold create_conversation
  rw [if_neg (by omega), if_neg (by simp [hvalid])]
  simp [titleOrDefault]

theorem create_conversation_empty_title_defaults_witness :
    (create_conversation
        ["0123456789abcdef01234567", "0123456789abcdef01234568"] (some "") 3 4
        { users := [], conversations := [], messages := [], emails := [], nextId := 9 }).1.conversations =
      [{ id := 9,
         participants := [strToOid "0123456789abcdef01234567", strToOid "0123456789abcdef01234568"],
         title := "Conversation", last_message := none, created_at := 3, updated_at := 4 }] :=
  (create_conversation_empty_title_defaults
      ["0123456789abcdef01234567", "0123456789abcdef01234568"] 3 4 _
      (by decide) (by decide)).1

/-- C6: `update_email` fails with BadRequest (HTTP 400, "Invalid id") on a
malformed id and with NotFound (HTTP 404) on a well-formed id matching no
stored email, and in both failure cases the email store is returned
unmodified. -/
theorem update_email_error_cases (email_id : String) (r : Option Bool)
    (f : Option String) (now : Nat) (st : DB) :
    (isValidOid email_id = false →
      update_email email_id r f now st = (st, .error invalidIdErr)) ∧
    (isValidOid email_id = true →
      (∀ e ∈ st.emails, e.id ≠ strToOid email_id) →
      update_email email_id r f now st = (st, .error notFoundErr)) := by
  constructor
  · intro hv
    simp only [update_email]
    rw [if_pos (by simp [hv])]
  · intro hv hnone
    simp only [update_email]
    rw [if_neg (by simp [hv])]
    rw [if_pos (by rw [List.all_eq_true]; intro e he; simpa using hnone e he)]
    rw [updateFirst_no_match _ _ _ (fun e he => by simpa using hnone e he)]

theorem update_email_error_cases_witness :
    update_email "zz" none none 7
        { users := [], conversations := [], messages := [], emails := [], nextId := 1 } =
      ({ users := [], conversations := [], messages := [], emails := [], nextId := 1 },
       .error invalidIdErr) ∧
    update_email "0123456789abcdef01234567" none none 7
        { users := [], conversations := [], messages := [], emails := [], nextId := 1 } =
      ({ users := [], conversations := [], messages := [], emails := [], nextId := 1 },
       .error notFoundErr) :=
  ⟨(update_email_error_cases "zz" none none 7 _).1 (by decide),
   (update_email_error_cases "0123456789abcdef01234567" none none 7 _).2 (by decide)
     (by intro e he; cases he)⟩

/-- C5: a successful `update_email` on the record with the requested id
changes only the supplied `read`/`folder` fields of that record, always
refreshes its `updated_at`, leaves every other field of that record and
every other record unchanged, and returns the updated record serialized. -/
theorem update_email_frame (email_id : String) (r : Option Bool) (f : Option String)
    (now : Nat) (st : DB) (e : Email)
    (hv : isValidOid email_id = true)
    (he : e ∈ st.emails) (hid : e.id = strToOid email_id)
    (hnd : (st.emails.map Email.id).Nodup) :
    update_email email_id r f now st =
      ({ st with emails := st.emails.map (fun x =>
          if x.id = strToOid email_id then applyEmailSet r f now x else x) },
       .ok (some (serialize_id (applyEmailSet r f now e).toDoc))) ∧
    (applyEmailSet r f now e).sender = e.sender ∧
    (applyEmailSet r f now e).«to» = e.«to» ∧
    (applyEmailSet r f now e).cc = e.cc ∧
    (applyEmailSet r f now e).bcc = e.bcc ∧
    (applyEmailSet r f now e).subject = e.subject ∧
    (applyEmailSet r f now e).body = e.body ∧
    (applyEmailSet r f now e).owner = e.owner ∧
    (applyEmailSet r f now e).created_at = e.created_at ∧
    (applyEmailSet r f now e).id = e.id ∧
    (applyEmailSet r f now e).updated_at = now ∧
    (r = none → (applyEmailSet r f now e).read = e.read) ∧
    (f = none → (applyEmailSet r f now e).folder = e.folder) ∧
    (∀ b, r = some b → (applyEmailSet r f now e).read = b) ∧
    (∀ s, f = some s → (applyEmailSet r f now e).folder = s) := by
  have hpair : st.emails.Pairwise
      (fun x y => decide (x.id = strToOid email_id) = true →
        decide (y.id = strToOid email_id) = false) := by
    have h1 : st.emails.Pairwise (fun x y => x.id ≠ y.id) := by
      rw [List.Nodup, List.pairwise_map] at hnd
      exact hnd
    refine h1.imp ?_
    intro x y hxy hx
    simp only [decide_eq_true_eq] at hx
    simpa using fun hy => hxy (hx.trans hy.symm)
  constructor
  · simp only [update_email]
    rw [if_neg (by simp [hv])]
    rw [if_neg (by
      intro hc
      rw [List.all_eq_true] at hc
      have hce := hc e he
      simp only [decide_eq_true_eq] at hce
      exact hce hid)]
    rw [updateFirst_eq_map _ _ _ hpair]
    rw [find?_map_of_unique (fun x => decide (x.id = strToOid email_id))
      (applyEmailSet r f now) st.emails e hpair he (decide_eq_true hid)
      (fun x hx => by simpa [applyEmailSet] using hx)]
    simp
  · refine ⟨rfl, rfl, rfl, rfl, rfl, rfl, rfl, rfl, rfl, rfl, ?_, ?_, ?_, ?_⟩
    · intro h
      subst h
      rfl
    · intro h
      subst h
      rfl
    · intro b h
      subst h
      rfl
    · intro s h
      subst h
      rfl

/-- Concrete store for exercising `update_email` on an existing record. -/
def wEmail5 : Email :=
  { id := strToOid "0123456789abcdef01234567", sender := "a@x.com", «to» := ["b@x.com"],
    cc := [], bcc := [], subject := "Hi", body := "Hello", read := false,
    folder := "inbox", owner := some "b@x.com", created_at := 1, updated_at := 1 }

/-- Concrete database holding only `wEmail5`. -/
def wDB5 : DB :=
  { users := [], conversations := [], messages := [], emails := [wEmail5], nextId := 5 }

theorem update_email_frame_witness :
    update_email "0123456789abcdef01234567" (some true) none 99 wDB5 =
      ({ wDB5 with emails := wDB5.emails.map (fun x =>
          if x.id = strToOid "0123456789abcdef01234567" then
            applyEmailSet (some true) none 99 x else x) },
       .ok (some (serialize_id (applyEmailSet (some true) none 99 wEmail5).toDoc))) :=
  (update_email_frame "0123456789abcdef01234567" (some true) none 99 wDB5 wEmail5
    (by decide) (by simp [wDB5]) rfl (by simp [wDB5, wEmail5])).1

/-- C2: a `send_message` call with well-formed ids always inserts exactly one
message record and returns it serialized; when a conversation with that id
exists its `last_message` is set to the content and its `updated_at` is set
to the update-time `now` (hence advanced whenever the clock is monotone);
when no such conversation exists the conversation update is a no-op while
the message is still created. -/
theorem send_message_inserts_and_updates (cid sid content : String) (t1 t2 : Nat)
    (st : DB) (hvc : isValidOid cid = true) (hvs : isValidOid sid = true)
    (hfresh : ∀ m ∈ st.messages, m.id ≠ st.nextId) :
    (send_message cid sid content t1 t2 st).1.messages =
      st.messages ++ [{ id := st.nextId, conversation_id := strToOid cid,
                        sender_id := strToOid sid, content := content, created_at := t1 }] ∧
    (send_message cid sid content t1 t2 st).2 =
      .ok (some (serialize_id (Message.toDoc
        { id := st.nextId, conversation_id := strToOid cid, sender_id := strToOid sid,
          content := content, created_at := t1 }))) ∧
    ((∀ c ∈ st.conversations, c.id ≠ strToOid cid) →
      (send_message cid sid content t1 t2 st).1.conversations = st.conversations) ∧
    (∀ c ∈ st.conversations, c.id = strToOid cid →
      (st.conversations.map Conversation.id).Nodup →
      (send_message cid sid content t1 t2 st).1.conversations =
        st.conversations.map (fun x => if x.id = strToOid cid then
          { x with last_message := some content, updated_at := t2 } else x) ∧
      ({ c with last_message := some content, updated_at := t2 }).last_message
        = some content ∧
      (c.updated_at ≤ t2 →
        c.updated_at ≤ ({ c with last_message := some content, updated_at := t2 }).updated_at)) := by
  have hcond : ¬¬(isValidOid cid && isValidOid sid) = true := by
    simp [hvc, hvs]
  refine ⟨?_, ?_, ?_, ?_⟩
  · simp only [send_message]
    rw [if_neg hcond]
  · simp only [send_message]
    rw [if_neg hcond]
    show Except.ok (Option.map _ (List.find? _ (st.messages ++ [_]))) = _
    rw [find?_append_right _ _ _ (fun x hx => by simpa using hfresh x hx)]
    simp
  · intro hnone
    simp only [send_message]
    rw [if_neg hcond]
    show updateFirst _ _ st.conversations = st.conversations
    exact updateFirst_no_match _ _ _ (fun c hc => by simpa using hnone c hc)
  · intro c hc hcid hnd
    have hpair : st.conversations.Pairwise
        (fun x y => decide (x.id = strToOid cid) = true →
          decide (y.id = strToOid cid) = false) := by
      have h1 : st.conversations.Pairwise (fun x y => x.id ≠ y.id) := by
        rw [List.Nodup, List.pairwise_map] at hnd
        exact hnd
      refine h1.imp ?_
      intro x y hxy hx
      simp only [decide_eq_true_eq] at hx
      simpa using fun hy => hxy (hx.trans hy.symm)
    refine ⟨?_, rfl, fun h => h⟩
    simp only [send_message]
    rw [if_neg hcond]
    show updateFirst _ _ st.conversations = _
    rw [updateFirst_eq_map (fun x => decide (x.id = strToOid cid))
      (fun x => { x with last_message := some content, updated_at := t2 })
      st.conversations hpair]
    simp

/-- Concrete conversation for exercising `send_message`. -/
def wConv2 : Conversation :=
  { id := strToOid "00000000000000000000000a", participants := [1, 2],
    title := "T", last_message := none, created_at := 0, updated_at := 3 }

/-- Concrete database holding only `wConv2`. -/
def wDB2 : DB :=
  { users := [], conversations := [wConv2], messages := [], emails := [], nextId := 7 }

theorem send_message_inserts_and_updates_witness :
    (send_message "00000000000000000000000a" "00000000000000000000000b" "yo" 4 5 wDB2).1.messages =
      [{ id := 7, conversation_id := strToOid "00000000000000000000000a",
         sender_id := strToOid "00000000000000000000000b", content := "yo", created_at := 4 }] :=
  (send_message_inserts_and_updates "00000000000000000000000a" "00000000000000000000000b"
    "yo" 4 5 wDB2 (by decide) (by decide) (by intro m hm; cases hm)).1

/-- C7: `list_conversations` with a present, non-empty, well-formed
`user_id` returns exactly the conversations whose participant list
contains that id; with an absent, empty, or malformed `user_id` it
silently returns all conversations; in every case the result is sorted by
`updated_at` descending, and the route serializes exactly these records. -/
theorem list_conversations_filter_and_sort (user_id : Option String) (st : DB) :
    (∀ u, user_id = some u → ¬ u = "" → isValidOid u = true →
      (listConversationsRecs user_id st).Perm
        (st.conversations.filter (fun c => c.participants.contains (strToOid u))) ∧
      List.Sorted updatedDesc (listConversationsRecs user_id st)) ∧
    ((user_id = none ∨ ∃ u, user_id = some u ∧ (u = "" ∨ isValidOid u = false)) →
      (listConversationsRecs user_id st).Perm st.conversations ∧
      List.Sorted updatedDesc (listConversationsRecs user_id st)) ∧
    list_conversations user_id st =
      (listConversationsRecs user_id st).map (fun c => serialize_id c.toDoc) := by
  refine ⟨?_, ?_, rfl⟩
  · intro u hu hne hval
    subst hu
    constructor
    · show (List.insertionSort updatedDesc (st.conversations.filter (convFilter (some u)))).Perm _
      have hcf : convFilter (some u) = fun c => c.participants.contains (strToOid u) := by
        simp only [convFilter]
        rw [if_pos (by simp [hne, hval])]
      rw [hcf]
      exact List.perm_insertionSort updatedDesc _
    · exact List.sorted_insertionSort updatedDesc _
  · intro hcase
    have hcf : convFilter user_id = fun _ => true := by
      rcases hcase with h1 | ⟨u, hu, h2⟩
      · subst h1
        rfl
      · subst hu
        simp only [convFilter]
        rw [if_neg ?_]
        rcases h2 with h3 | h3
        · simp [h3]
        · simp [h3]
    constructor
    · show (List.insertionSort updatedDesc (st.conversations.filter (convFilter user_id))).Perm _
      rw [hcf, List.filter_true]
      exact List.perm_insertionSort updatedDesc _
    · exact List.sorted_insertionSort updatedDesc _

/-- Concrete conversations for exercising `list_conversations`. -/
def wConv7a : Conversation :=
  { id := 1, participants := [strToOid "00000000000000000000000a"], title := "A",
    last_message := none, created_at := 0, updated_at := 2 }

/-- A second concrete conversation, without the queried participant. -/
def wConv7b : Conversation :=
  { id := 2, participants := [strToOid "00000000000000000000000b"], title := "B",
    last_message := none, created_at := 0, updated_at := 9 }

/-- Concrete database holding `wConv7a` and `wConv7b`. -/
def wDB7 : DB :=
  { users := [], conversations := [wConv7a, wConv7b], messages := [], emails := [], nextId := 3 }

theorem list_conversations_filter_and_sort_witness :
    (listConversationsRecs (some "00000000000000000000000a") wDB7).Perm
      (wDB7.conversations.filter
        (fun c => c.participants.contains (strToOid "00000000000000000000000a"))) ∧
    List.Sorted updatedDesc (listConversationsRecs (some "00000000000000000000000a") wDB7) :=
  (list_conversations_filter_and_sort (some "00000000000000000000000a") wDB7).1
    "00000000000000000000000a" rfl (by decide) (by decide)

/-- C1: `create_email` stores exactly one `sent`-folder record carrying no
`owner` field, plus — for each address in `to`, and for no cc/bcc-only
address — exactly one additional record duplicating the content fields
with `folder = "inbox"`, `owner` set to that address and `read = false`,
and it returns the serialized `sent` record only. -/
theorem create_email_fanout (sender : String) (tos cc bcc : List String)
    (subject body : String) (t1 t2 t3 : Nat) (st : DB)
    (hfresh : ∀ e ∈ st.emails, e.id ≠ st.nextId)
    (hnd : tos.Nodup) :
    ∀ sent copies,
      sent = sentEmail sender tos cc bcc subject body t1 t2 st.nextId →
      copies = mkInboxCopies sent t3 tos (st.nextId + 1) →
      (create_email sender tos cc bcc subject body t1 t2 t3 st).1.emails =
        st.emails ++ sent :: copies ∧
      (create_email sender tos cc bcc subject body t1 t2 t3 st).2 =
        some (serialize_id sent.toDoc) ∧
      sent.folder = "sent" ∧ sent.owner = none ∧ sent.read = false ∧
      (sent :: copies).countP (fun e => e.folder = "sent") = 1 ∧
      (∀ e ∈ sent :: copies, e.folder = "sent" → e.owner = none) ∧
      (∀ a, (sent :: copies).countP
          (fun e => e.folder = "inbox" && e.owner = some a) =
        if a ∈ tos then 1 else 0) ∧
      (∀ e ∈ sent :: copies, e.folder = "inbox" →
        e.sender = sender ∧ e.«to» = tos ∧ e.cc = cc ∧ e.bcc = bcc ∧
        e.subject = subject ∧ e.body = body ∧ e.read = false ∧
        (∃ r ∈ tos, e.owner = some r) ∧ e.created_at = t3 ∧ e.updated_at = t3) := by
  intro sent copies hsent hcopies
  subst hsent
  subst hcopies
  refine ⟨rfl, ?_, rfl, rfl, rfl, ?_, ?_, ?_, ?_⟩
  · show Option.map _ (List.find? _ (st.emails ++ _ :: _)) = _
    rw [find?_append_right _ _ _ (fun x hx => by simpa using hfresh x hx)]
    rw [List.find?_cons_of_pos _ (by simp [sentEmail])]
    rfl
  · rw [List.countP_cons]
    have hzero : (mkInboxCopies (sentEmail sender tos cc bcc subject body t1 t2 st.nextId)
        t3 tos (st.nextId + 1)).countP (fun e => decide (e.folder = "sent")) = 0 := by
      rw [List.countP_eq_zero]
      intro e he
      have hf := (mem_mkInboxCopies _ _ _ _ e he).1
      simp [hf]
    rw [hzero]
    simp [sentEmail]
  · intro e he hf
    rcases List.mem_cons.mp he with h1 | h2
    · subst h1
      rfl
    · have hfi := (mem_mkInboxCopies _ _ _ _ e h2).1
      rw [hfi] at hf
      exact absurd hf (by decide)
  · intro a
    rw [List.countP_cons]
    rw [countP_mkInboxCopies_owner _ _ _ _ _ hnd]
    have hsentp : (decide ((sentEmail sender tos cc bcc subject body t1 t2 st.nextId).folder
        = "inbox") && decide ((sentEmail sender tos cc bcc subject body t1 t2 st.nextId).owner
        = some a)) = false := by
      simp [sentEmail]
    rw [hsentp]
    simp
  · intro e he hf
    rcases List.mem_cons.mp he with h1 | h2
    · subst h1
      exact absurd hf (by simp [sentEmail])
    · obtain ⟨h1, h2, h3, h4, h5, h6, h7, h8, h9, h10, h11⟩ :=
        mem_mkInboxCopies _ _ _ _ e h2
      exact ⟨h3, h4, h5, h6, h7, h8, h9, h2, h10, h11⟩

theorem create_email_fanout_witness :
    (create_email "a@x.com" ["b@x.com", "c@x.com"] [] [] "Hi" "Hello" 5 6 7
        { users := [], conversations := [], messages := [], emails := [], nextId := 1 }).2 =
      some (serialize_id (sentEmail "a@x.com" ["b@x.com", "c@x.com"] [] [] "Hi" "Hello" 5 6 1).toDoc) :=
  ((create_email_fanout "a@x.com" ["b@x.com", "c@x.com"] [] [] "Hi" "Hello" 5 6 7
      { users := [], conversations := [], messages := [], emails := [], nextId := 1 }
      (by intro e he; cases he) (by decide)
      (sentEmail "a@x.com" ["b@x.com", "c@x.com"] [] [] "Hi" "Hello" 5 6 1)
      (mkInboxCopies (sentEmail "a@x.com" ["b@x.com", "c@x.com"] [] [] "Hi" "Hello" 5 6 1)
        7 ["b@x.com", "c@x.com"] 2)
      rfl rfl).2.1)

/-- The conversation of the search counterexample: its title `"abc"` does
not contain the query `"."` as a substring. -/
def searchConvCex : Conversation :=
  { id := 1, participants := [], title := "abc", last_message := none,
    created_at := 0, updated_at := 0 }

/-- Concrete database holding only `searchConvCex`. -/
def searchDBCex : DB :=
  { users := [], conversations := [searchConvCex], messages := [], emails := [], nextId := 2 }

/-- C4 counterexample: the handler passes the raw query to `$regex`
unescaped, so the query `"."` (whose one character is a regex
metacharacter) matches the title `"abc"` although `"abc"` does not
contain `"."` as a substring: `search` returns the conversation while the
claim's substring filter returns nothing. -/
theorem search_regex_not_substring :
    (search "." searchDBCex).1 = [serialize_id searchConvCex.toDoc] ∧
    ((searchDBCex.conversations.filter (fun c => containsCI c.title ".")).take 10).map
      (fun c => serialize_id c.toDoc) = [] := by
  constructor
  · decide
  · decide

/-- C4 (amended): an empty query returns two empty lists; a non-empty query
containing no regex metacharacter returns exactly the conversations whose
title contains it as a case-insensitive substring and the emails whose
subject or body contains it, each capped at 10; a query containing regex
metacharacters is interpreted as a raw (unescaped) regular expression
pattern rather than a literal substring. -/
theorem search_empty_and_literal (q : String) (st : DB) (hlit : literalQuery q) :
    (q = "" → search q st = ([], [])) ∧
    (¬ q = "" → search q st =
      (((st.conversations.filter (fun c => containsCI c.title q)).take 10).map
          (fun c => serialize_id c.toDoc),
       ((st.emails.filter
            (fun e => containsCI e.subject q || containsCI e.body q)).take 10).map
          (fun e => serialize_id e.toDoc))) := by
  constructor
  · intro h
    simp [search, h]
  · intro h
    simp only [search]
    rw [if_neg h]
    have hc : st.conversations.filter (fun c => regexFindCI q c.title) =
        st.conversations.filter (fun c => containsCI c.title q) :=
      List.filter_congr (fun c _ => by rw [regexFindCI_literal q c.title hlit])
    have he : st.emails.filter
          (fun e => regexFindCI q e.subject || regexFindCI q e.body) =
        st.emails.filter (fun e => containsCI e.subject q || containsCI e.body q) :=
      List.filter_congr (fun e _ => by
        rw [regexFindCI_literal q e.subject hlit, regexFindCI_literal q e.body hlit])
    rw [hc, he]

theorem search_empty_and_literal_witness :
    search "B" searchDBCex =
      (((searchDBCex.conversations.filter (fun c => containsCI c.title "B")).take 10).map
          (fun c => serialize_id c.toDoc),
       ((searchDBCex.emails.filter
            (fun e => containsCI e.subject "B" || containsCI e.body "B")).take 10).map
          (fun e => serialize_id e.toDoc)) :=
  (search_empty_and_literal "B" searchDBCex (by decide)).2 (by decide)
